import Mathlib

/-!
Verification of the agent-orchestration and tool-approval core of the
`app-app` repository, shallowly embedded in Lean 4.

The embedding covers:
* the permission rule engine (`services/permission_rules_service.py`),
* the approval broker endpoints (`controllers/approval_controller.py`),
* the agent-side approval RPC client (`mcp/approval_gate.py`),
* the stream-merging run loop and recovery controller
  (`agents/claude_code_provider.py`).

Python strings are modelled as Lean `String`, dictionaries with string keys
as association lists (one entry per key, insertion overwrites), absent
optional dict fields as the empty string (the source code treats absent and
empty identically through `.get(..., "")` defaults and truthiness tests).
-/

namespace AppApp

/-! ## Small string-keyed maps (Python dict with string keys) -/

def mlookup {α : Type} : List (String × α) → String → Option α
  | [], _ => none
  | (k, v) :: t, key => if k = key then some v else mlookup t key

def merase {α : Type} (m : List (String × α)) (k : String) : List (String × α) :=
  m.filter (fun p => p.1 != k)

def minsert {α : Type} (m : List (String × α)) (k : String) (v : α) :
    List (String × α) :=
  (k, v) :: merase m k

/-! ## Python string helpers

Kernel-friendly models of the Python string operations the source uses:
`str.strip`, `str.lower`, slicing, `startswith`, `endswith`, substring
membership, and `os.path.basename`. -/

def pyStrip (s : String) : String :=
  ⟨((s.data.dropWhile Char.isWhitespace).reverse.dropWhile Char.isWhitespace).reverse⟩

def pyLower (s : String) : String := ⟨s.data.map Char.toLower⟩

def pyTake (s : String) (n : Nat) : String := ⟨s.data.take n⟩

def pyStartsWith (s pre : String) : Bool := pre.data.isPrefixOf s.data

def pyEndsWith (s suf : String) : Bool := suf.data.reverse.isPrefixOf s.data.reverse

/-- Substring containment, Python's `needle in hay`. -/
def hasInfix : List Char → List Char → Bool
  | hay, needle =>
    needle.isPrefixOf hay ||
      (match hay with
       | [] => false
       | _ :: t => hasInfix t needle)

/-- Model of `os.path.basename` on POSIX: everything after the last slash. -/
def basename (p : String) : String :=
  ⟨(p.data.reverse.takeWhile (fun c => c != '/')).reverse⟩

/-! ## shlex.split

Model of Python's `shlex.split(s)` (POSIX mode, whitespace splitting, no
comment handling), as used by the permission rule engine.  `none` models the
`ValueError` raised on an unterminated quote or a trailing escape character. -/

inductive SState
  | ws | word | squote | dquote | escWord | escDquote
deriving DecidableEq, Repr

def shlexCore : List Char → SState → String → Bool → List String → Option (List String)
  | [], .ws, _tok, _q, acc => some acc
  | [], .word, tok, q, acc => some (if tok ≠ "" ∨ q then acc ++ [tok] else acc)
  | [], .squote, _, _, _ => none
  | [], .dquote, _, _, _ => none
  | [], .escWord, _, _, _ => none
  | [], .escDquote, _, _, _ => none
  | c :: cs, .ws, tok, q, acc =>
    if c.isWhitespace then shlexCore cs .ws tok q acc
    else if c = '\\' then shlexCore cs .escWord tok q acc
    else if c = '\'' then shlexCore cs .squote tok q acc
    else if c = '"' then shlexCore cs .dquote tok q acc
    else shlexCore cs .word (tok.push c) q acc
  | c :: cs, .word, tok, q, acc =>
    if c.isWhitespace then
      if tok ≠ "" ∨ q then shlexCore cs .ws "" false (acc ++ [tok])
      else shlexCore cs .ws tok q acc
    else if c = '\'' then shlexCore cs .squote tok q acc
    else if c = '"' then shlexCore cs .dquote tok q acc
    else if c = '\\' then shlexCore cs .escWord tok q acc
    else shlexCore cs .word (tok.push c) q acc
  | c :: cs, .squote, tok, _q, acc =>
    if c = '\'' then shlexCore cs .word tok true acc
    else shlexCore cs .squote (tok.push c) true acc
  | c :: cs, .dquote, tok, _q, acc =>
    if c = '"' then shlexCore cs .word tok true acc
    else if c = '\\' then shlexCore cs .escDquote tok true acc
    else shlexCore cs .dquote (tok.push c) true acc
  | c :: cs, .escWord, tok, q, acc => shlexCore cs .word (tok.push c) q acc
  | c :: cs, .escDquote, tok, _q, acc =>
    if c = '\\' ∨ c = '"' then shlexCore cs .dquote (tok.push c) true acc
    else shlexCore cs .dquote ((tok.push '\\').push c) true acc

def shlexSplit (s : String) : Option (List String) :=
  shlexCore s.data .ws "" false []

/-! ## fnmatch

Model of `fnmatch.fnmatch(name, pattern)` on a case-sensitive platform:
`*` matches any sequence, `?` any single character, `[...]` a character
class (leading `!` negates, a class-leading `]` is literal, an unclosed `[`
is literal).  Defined with explicit fuel; the wrapper always supplies more
fuel than the recursion can consume, so the fuel never runs out. -/

def classBody : List Char → Option (List Char × List Char)
  | [] => none
  | ']' :: t => some ([], t)
  | c :: t =>
    match classBody t with
    | none => none
    | some (body, rest) => some (c :: body, rest)

def splitClass (ps : List Char) : Option (Bool × List Char × List Char) :=
  match ps with
  | '!' :: ']' :: t => (classBody t).map (fun p => (true, ']' :: p.1, p.2))
  | '!' :: t => (classBody t).map (fun p => (true, p.1, p.2))
  | ']' :: t => (classBody t).map (fun p => (false, ']' :: p.1, p.2))
  | t => (classBody t).map (fun p => (false, p.1, p.2))

def classMatch (c : Char) : List Char → Bool
  | a :: '-' :: b :: rest =>
    if a ≤ c ∧ c ≤ b then true else classMatch c rest
  | a :: rest => if c = a then true else classMatch c rest
  | [] => false

def globMatchF : Nat → List Char → List Char → Bool
  | 0, _, _ => false
  | _ + 1, [], [] => true
  | _ + 1, [], _ :: _ => false
  | fuel + 1, '*' :: ps, s =>
    globMatchF fuel ps s ||
      (match s with
       | [] => false
       | _ :: s' => globMatchF fuel ('*' :: ps) s')
  | fuel + 1, '?' :: ps, s =>
    (match s with
     | [] => false
     | _ :: s' => globMatchF fuel ps s')
  | fuel + 1, '[' :: ps, s =>
    (match splitClass ps with
     | none =>
       match s with
       | '[' :: s' => globMatchF fuel ps s'
       | _ => false
     | some (neg, body, rest) =>
       match s with
       | c :: s' => (classMatch c body != neg) && globMatchF fuel rest s'
       | [] => false)
  | fuel + 1, p :: ps, s =>
    (match s with
     | c :: s' => p = c && globMatchF fuel ps s'
     | [] => false)

def fnmatch (name pattern : String) : Bool :=
  globMatchF (pattern.data.length + name.data.length + 1) pattern.data name.data

/-! ## Permission rule engine (`PermissionRulesService`) -/

/-- The fixed dangerous-command set from `permission_rules_service.DANGEROUS`. -/
def DANGEROUS : List String :=
  ["rm", "rmdir", "sudo", "su", "curl", "wget", "pip", "npm", "brew",
   "kill", "killall", "pkill", "dd", "mkfs", "chmod", "chown", "shutdown"]

/-- A tool-call input payload.  The empty string models an absent field. -/
structure ToolInput where
  command : String := ""
  file_path : String := ""
  path : String := ""
  content : String := ""
  old_string : String := ""
deriving DecidableEq, Repr

/-- A persisted permission rule. -/
structure Rule where
  tool : String := ""
  match_type : String := ""
  pattern : String := ""
  action : String := ""
deriving DecidableEq, Repr

/-- Model of `PermissionRulesService.suggest_bash_pattern`. -/
def suggest_bash_pattern (command : String) : Option String :=
  let command := pyStrip command
  if command = "" then none
  else
    match shlexSplit command with
    | none => none
    | some [] => none
    | some (first :: _) =>
      let base := basename first
      if DANGEROUS.contains base then none else some base

/-- Model of `PermissionRulesService._matches`. -/
def matchesRule (rule : Rule) (tool : String) (inp : ToolInput) : Bool :=
  if rule.tool ≠ tool then false
  else if rule.match_type = "glob" then
    let fp := if inp.file_path ≠ "" then inp.file_path else inp.path
    if fp = "" then false
    else if fnmatch fp rule.pattern then true
    else if ¬ pyStartsWith fp "/" then fnmatch ("/" ++ fp) rule.pattern
    else false
  else if rule.match_type = "prefix" then
    let base :=
      match suggest_bash_pattern inp.command with
      | some b => b
      | none =>
        match shlexSplit (pyStrip inp.command) with
        | some (first :: _) => basename first
        | some [] => ""
        | none => ""
    base = rule.pattern
  else false

/-- Model of `PermissionRulesService.check`: deny rules are scanned before
allow rules across the whole rule list. -/
def check (rules : List Rule) (tool : String) (inp : ToolInput) : String :=
  if rules.any (fun r => r.action == "deny" && matchesRule r tool inp) then "deny"
  else if rules.any (fun r => r.action == "allow" && matchesRule r tool inp) then "allow"
  else "ask"

/-! ## Approval broker (`controllers/approval_controller.py`)

The module-level registries `_pending`, `_decisions` and `_events` are
modelled as the three fields of `BrokerState`.  A `threading.Event` is
modelled by its set flag.  The endpoints are modelled as sequential state
transformers; `api_approval_wait`'s `ev.wait(timeout=300)` blocks until the
flag is set or the 300-second bound elapses, after which the handler
continues identically in either case, so the sequential model runs the
post-wait code directly.  `provider.inject_event` calls are returned as a
list of `InjEvent` values, and both `hasattr` probes on the provider
(`get_code_folder`, `inject_event`) are true for the one concrete provider
class, so they are modelled as true. -/

/-- One entry of the `_pending` registry. -/
structure PendingInfo where
  chat_id : String := ""
  tool : String := ""
  inp : ToolInput := {}
deriving DecidableEq, Repr

structure BrokerState where
  pending : List (String × PendingInfo) := []
  decisions : List (String × String) := []
  events : List (String × Bool) := []
deriving DecidableEq, Repr

/-- Events pushed into the chat's live stream via `provider.inject_event`. -/
inductive InjEvent
  | permissionRequest (request_id tool path description : String)
      (always_allow_pattern : Option String)
  | permissionDecision (request_id : String) (approved : Bool)
deriving DecidableEq, Repr

/-- HTTP responses of the broker endpoints. -/
inductive Resp
  | err (code : Nat) (msg : String)
  | okAuto (request_id : String)
  | okPending (request_id : String)
  | okDecision (decision : String)
  | okDecide (decision : String)
deriving DecidableEq, Repr

/-- The fixed long-poll bound of `api_approval_wait` (`ev.wait(timeout=300)`),
in seconds. -/
def WAIT_TIMEOUT_SECONDS : Nat := 300

/-- Model of `api_approval_request`.  `rulesService` is the rule list of the
injected `PermissionRulesService`, or `none` when no service was injected;
`codeFolder` is `provider.get_code_folder`. -/
def apiApprovalRequest (rulesService : Option (List Rule)) (codeFolder : String → String)
    (s : BrokerState) (request_id chat_id tool : String) (inp : ToolInput) :
    Resp × BrokerState × List InjEvent :=
  if request_id = "" then (.err 400 "request_id required", s, [])
  else
    let s1 : BrokerState :=
      { s with events := minsert s.events request_id false,
               pending := minsert s.pending request_id ⟨chat_id, tool, inp⟩ }
    let rulesAllow :=
      match rulesService with
      | some rules => check rules tool inp == "allow"
      | none => false
    if rulesAllow then
      (.okAuto request_id,
       { s1 with decisions := minsert s1.decisions request_id "allow",
                 events := minsert s1.events request_id true }, [])
    else
      let folderAllow :=
        (tool == "Write" || tool == "Edit" || tool == "MultiEdit") &&
          (let cf := codeFolder chat_id
           cf != "" && inp.file_path != "" && pyStartsWith inp.file_path (cf ++ "/"))
      if folderAllow then
        (.okAuto request_id,
         { s1 with decisions := minsert s1.decisions request_id "allow",
                   events := minsert s1.events request_id true }, [])
      else
        let description :=
          if inp.command ≠ "" then inp.command
          else if pyTake inp.content 120 ≠ "" then pyTake inp.content 120
          else if pyTake inp.old_string 80 ≠ "" then pyTake inp.old_string 80
          else ""
        let path := if inp.file_path ≠ "" then inp.file_path else inp.path
        let aap : Option String :=
          match rulesService with
          | some _ =>
            if tool == "Bash" then suggest_bash_pattern inp.command
            else if tool == "Write" || tool == "Edit" || tool == "MultiEdit" then
              if pyEndsWith path ".md" then some "**/*.md" else none
            else none
          | none => none
        (.okPending request_id, s1,
         [.permissionRequest request_id tool path description aap])

/-- Model of `api_approval_wait`. -/
def apiApprovalWait (s : BrokerState) (request_id : String) : Resp × BrokerState :=
  match mlookup s.events request_id with
  | none => (.err 404 "Unknown request_id", s)
  | some _evSet =>
    let decision := (mlookup s.decisions request_id).getD "deny"
    (.okDecision decision,
     { pending := merase s.pending request_id,
       decisions := merase s.decisions request_id,
       events := merase s.events request_id })

/-- Model of `api_approval_decide`. -/
def apiApprovalDecide (s : BrokerState) (request_id decision : String) :
    Resp × BrokerState × List InjEvent :=
  if request_id = "" then (.err 400 "request_id required", s, [])
  else if decision ≠ "allow" ∧ decision ≠ "deny" then
    (.err 400 "decision must be allow or deny", s, [])
  else
    match mlookup s.events request_id with
    | none => (.err 404 "No pending request for this request_id", s, [])
    | some _ =>
      let s1 : BrokerState :=
        { s with decisions := minsert s.decisions request_id decision,
                 events := minsert s.events request_id true }
      let chat_id := ((mlookup s1.pending request_id).map PendingInfo.chat_id).getD ""
      (.okDecide decision, s1,
       if chat_id ≠ "" then [.permissionDecision request_id (decision == "allow")]
       else [])

/-! ## Agent-side approval RPC client (`mcp/approval_gate.py`)

The two HTTP calls of `_request_approval` are modelled by a `Transport`
record: `registerOk = false` models any exception while POSTing to
`/api/approval/request`; `waitResp = none` models any exception during the
long-poll GET of `/api/approval/wait/...`; `waitResp = some d` models a
successful response whose optional `decision` field is `d`. -/

structure Transport where
  registerOk : Bool
  waitResp : Option (Option String)
deriving DecidableEq, Repr

/-- Model of `_request_approval`: fail-closed on any transport error. -/
def requestApproval (t : Transport) : String :=
  if ¬ t.registerOk then "deny"
  else
    match t.waitResp with
    | none => "deny"
    | some d => d.getD "deny"

/-- Outcome of handling one `tools/call` message in `main` for a gated tool. -/
inductive ToolCallOutcome
  | denied
  | executed (result : String) (isError : Bool)
  | unknownTool
deriving DecidableEq, Repr

/-- Model of the `tools/call` branch of `main` for a tool name that is not
`AskUserQuestion`: consult the approval gate, and only on an `allow`
decision run the matching executor (whose filesystem or shell behaviour is
abstracted as an `Except`: `Except.error` models a raised exception). -/
def handleGatedToolCall (t : Transport) (toolKnown : Bool)
    (executor : Unit → Except String String) : ToolCallOutcome :=
  if ¬ toolKnown then .unknownTool
  else
    let decision := requestApproval t
    if decision ≠ "allow" then .denied
    else
      match executor () with
      | .ok r => .executed r false
      | .error e => .executed ("Error: " ++ e) true

/-! ## Process supervisor, stream merger and recovery controller
(`agents/claude_code_provider.py`, `_run_stream_impl` and `run_stream`)

The merged queue contents are modelled as a list of `QItem` values, in
arrival order.  A stdout line is modelled pre-classified as either raw text
(`json.loads` fails) or a JSON object together with its `type` and
`session_id` fields (the only fields `_run_stream_impl` reads; a missing
field is the empty string, matching the `.get` defaults).  Every `yield` of
the generator becomes an `Emit`; externally visible side effects (session
persistence, closing stdin, invoking the compaction subprocess, dropping a
session, remembering a cancelled prompt) become further `Action`s, in
program order.  The `subprocess.Popen` spawn and the initial stdin write are
modelled by the `spawnOk` / `stdinWriteOk` flags of `RunEnv`, and the
outcome of the external `claude -p --resume <id> /compact` subprocess by
`compactOk`.  Process registration/teardown bookkeeping that has no
observable effect in this model (queue registration, process wait and kill)
is not represented. -/

/-- A line read from the subprocess's stdout, pre-classified. -/
inductive OutLine
  | raw (text : String)
  | json (text : String) (typ : String) (session_id : String)
deriving DecidableEq, Repr

def lineText : OutLine → String
  | .raw t => t
  | .json t _ _ => t

/-- One item of the merged queue. -/
inductive QItem
  | out (l : OutLine)
  | err (line : String)
  | outEof
  | errEof
  | inj (payload : String)
  | cancel
deriving DecidableEq, Repr

/-- One event yielded by `_run_stream_impl`. -/
inductive Emit
  | debugCmd
  | spawnError (msg : String)
  | stdinWriteError (msg : String)
  | cancelledEvt
  | injectedEvt (payload : String)
  | stdoutEvt (l : OutLine)
  | stderrEvt (line : String)
  | sessionCompactingEvt
  | sessionCompactedEvt
  | sessionResetEvt
  | noOutputError
deriving DecidableEq, Repr

/-- One observable step of a run, in program order. -/
inductive Action
  | emit (e : Emit)
  | persistSession (chat sid : String)
  | closeStdin
  | tryCompact (session : String)
  | dropSession (chat : String)
  | storeCancelledPrompt (chat prompt : String)
deriving DecidableEq, Repr

/-- The local state of the merge-queue consuming loop. -/
structure LoopState where
  outDone : Bool := false
  errDone : Bool := false
  gotResult : Bool := false
  wasCancelled : Bool := false
  stdinClosed : Bool := false
  stdoutLines : List String := []
  stderrLines : List String := []
deriving DecidableEq, Repr

/-- The loop has exited: either both eof markers arrived, or the cancel
sentinel broke out of it. -/
def LoopState.halted (st : LoopState) : Bool :=
  st.wasCancelled || (st.outDone && st.errDone)

/-- Model of the `while not (out_done and err_done)` consuming loop of
`_run_stream_impl`.  `chat` is `chat_id` and `smap` is `self._session_map`;
the returned list holds the actions performed, in order.  An exhausted item
list models the point after which no further queue items arrive. -/
def consumeLoop (chat : String) :
    List QItem → LoopState → List (String × String) →
      LoopState × List (String × String) × List Action
  | [], st, smap => (st, smap, [])
  | item :: rest, st, smap =>
    if st.outDone && st.errDone then (st, smap, [])
    else
      match item with
      | .outEof => consumeLoop chat rest { st with outDone := true } smap
      | .errEof => consumeLoop chat rest { st with errDone := true } smap
      | .cancel =>
        ({ st with wasCancelled := true }, smap, [.emit .cancelledEvt])
      | .inj payload =>
        if payload = "" then consumeLoop chat rest st smap
        else
          let r := consumeLoop chat rest st smap
          (r.1, r.2.1, .emit (.injectedEvt payload) :: r.2.2)
      | .out l =>
        if lineText l = "" then consumeLoop chat rest st smap
        else
          let st1 := { st with stdoutLines := st.stdoutLines ++ [lineText l] }
          match l with
          | .raw _ =>
            let r := consumeLoop chat rest st1 smap
            (r.1, r.2.1, .emit (.stdoutEvt l) :: r.2.2)
          | .json _ typ sid =>
            if typ = "result" then
              let st2 := { st1 with gotResult := true }
              let persistActs : List Action :=
                if sid ≠ "" ∧ chat ≠ "" then [.persistSession chat sid] else []
              let smap1 :=
                if sid ≠ "" ∧ chat ≠ "" then minsert smap chat sid else smap
              let closeActs : List Action :=
                if st2.stdinClosed then [] else [.closeStdin]
              let st3 := { st2 with stdinClosed := true }
              let r := consumeLoop chat rest st3 smap1
              (r.1, r.2.1, persistActs ++ closeActs ++ .emit (.stdoutEvt l) :: r.2.2)
            else
              let r := consumeLoop chat rest st1 smap
              (r.1, r.2.1, .emit (.stdoutEvt l) :: r.2.2)
      | .err line =>
        if line = "" then consumeLoop chat rest st smap
        else
          let st1 := { st with stderrLines := st.stderrLines ++ [line] }
          let r := consumeLoop chat rest st1 smap
          (r.1, r.2.1, .emit (.stderrEvt line) :: r.2.2)

/-- The textual signatures of a session grown too large
(`_PROMPT_TOO_LONG_PATTERNS`). -/
def PROMPT_TOO_LONG_PATTERNS : List String :=
  ["prompt is too long", "prompt_too_long", "context window", "maximum context length"]

/-- The environment of one `_run_stream_impl` invocation: the modelled
outcomes of its interactions with the outside world. -/
structure RunEnv where
  spawnOk : Bool := true
  spawnErrMsg : String := ""
  stdinWriteOk : Bool := true
  items : List QItem := []
  compactOk : Bool := false
deriving DecidableEq, Repr

/-- Provider state threaded through runs (`self._session_map` and
`self._cancelled_prompts`). -/
structure ProvState where
  sessionMap : List (String × String) := []
  cancelledPrompts : List (String × String) := []
deriving DecidableEq, Repr

/-- Whether a single `_run_stream_impl` invocation would recurse, and how. -/
inductive RetryReq
  | noRetry
  | retryAfterCompact
  | retryFresh
deriving DecidableEq, Repr

/-- Model of one `_run_stream_impl` invocation without its recursive
retry call: the recursion request is returned as a `RetryReq` and performed
by `runStreamTop`.  `isRetry` is `_is_retry`; `originalPrompt` is
`_original_prompt`. -/
def runOnce (isRetry : Bool) (env : RunEnv) (chat prompt originalPrompt : String)
    (ps : ProvState) : ProvState × List Action × RetryReq :=
  let claudeSession := (mlookup ps.sessionMap chat).getD ""
  let dbg : List Action := [.emit .debugCmd]
  if env.spawnOk = false then
    (ps, dbg ++ [.emit (.spawnError env.spawnErrMsg)], .noRetry)
  else if env.stdinWriteOk = false then
    (ps, dbg ++ [.emit (.stdinWriteError "stdin write error")], .noRetry)
  else
    let r := consumeLoop chat env.items {} ps.sessionMap
    let st := r.1
    let ps1 := { ps with sessionMap := r.2.1 }
    let loopActs := r.2.2
    let teardown : List Action := if st.stdinClosed then [] else [.closeStdin]
    let baseActs := dbg ++ loopActs ++ teardown
    if st.wasCancelled then
      let storedPrompt := if originalPrompt ≠ "" then originalPrompt else prompt
      if chat ≠ "" then
        ({ ps1 with cancelledPrompts := minsert ps1.cancelledPrompts chat storedPrompt },
         baseActs ++ [.storeCancelledPrompt chat storedPrompt], .noRetry)
      else (ps1, baseActs, .noRetry)
    else
      let allLower :=
        pyLower (String.intercalate "\n" (st.stdoutLines ++ st.stderrLines))
      let promptTooLong :=
        (!st.gotResult) && (!isRetry) && (chat != "") && (claudeSession != "") &&
          PROMPT_TOO_LONG_PATTERNS.any (fun p => hasInfix allLower.data p.data)
      if promptTooLong then
        if env.compactOk then
          (ps1,
           baseActs ++ [.emit .sessionCompactingEvt, .tryCompact claudeSession,
                        .emit .sessionCompactedEvt],
           .retryAfterCompact)
        else
          ({ ps1 with sessionMap := merase ps1.sessionMap chat },
           baseActs ++ [.emit .sessionCompactingEvt, .tryCompact claudeSession,
                        .dropSession chat, .emit .sessionResetEvt],
           .retryFresh)
      else if (!st.gotResult) && st.stdoutLines.isEmpty then
        (ps1, baseActs ++ [.emit .noOutputError], .noRetry)
      else (ps1, baseActs, .noRetry)

/-- Model of `_run_stream_impl` including its single-depth recursion: the
first invocation runs with `_is_retry = False`; when it requests a retry the
second invocation runs with `_is_retry = True` against the retry
environment, and `runOnce` with `isRetry = true` never requests another
retry (`runOnce_retry_noRetry` below), matching the recursion bound of the
source. -/
def runStreamTop (env retryEnv : RunEnv) (chat prompt originalPrompt : String)
    (ps : ProvState) : ProvState × List Action :=
  let r1 := runOnce false env chat prompt originalPrompt ps
  match r1.2.2 with
  | .noRetry => (r1.1, r1.2.1)
  | _ =>
    let r2 := runOnce true retryEnv chat prompt originalPrompt r1.1
    (r2.1, r1.2.1 ++ r2.2.1)

/-- Model of `run_stream`: pop any remembered cancelled prompt for the chat
and prepend it as context, then run `_run_stream_impl`. -/
def runStream (env retryEnv : RunEnv) (chat prompt : String) (ps : ProvState) :
    ProvState × List Action :=
  let prevPrompt :=
    if chat ≠ "" then (mlookup ps.cancelledPrompts chat).getD "" else ""
  let ps1 :=
    if chat ≠ "" then { ps with cancelledPrompts := merase ps.cancelledPrompts chat }
    else ps
  let fullPrompt :=
    if prevPrompt ≠ "" then
      "[Context: the previous request was cancelled. Original message:]\n" ++
        prevPrompt ++ "\n[New message:]\n" ++ prompt
    else prompt
  runStreamTop env retryEnv chat fullPrompt prompt ps1

/-- The actions that belong to the recovery controller: a compaction
attempt, a session drop, or one of the recovery stream events. -/
def isRecoveryAct : Action → Bool
  | .tryCompact _ => true
  | .dropSession _ => true
  | .emit .sessionCompactingEvt => true
  | .emit .sessionCompactedEvt => true
  | .emit .sessionResetEvt => true
  | _ => false

/-- The emitted events of error kind (serialized with `type: error` by the
source). -/
def isErrorEmit : Action → Bool
  | .emit (.stderrEvt _) => true
  | .emit .noOutputError => true
  | .emit (.spawnError _) => true
  | .emit (.stdinWriteError _) => true
  | _ => false

/-! ## Map lemmas -/

theorem mlookup_minsert_self {α : Type} (m : List (String × α)) (k : String) (v : α) :
    mlookup (minsert m k v) k = some v := by
  simp [minsert, mlookup]

theorem mlookup_merase_self {α : Type} (m : List (String × α)) (k : String) :
    mlookup (merase m k) k = none := by
  induction m with
  | nil => rfl
  | cons p t ih =>
    by_cases h : p.1 = k
    · simpa [merase, h] using ih
    · simpa [merase, mlookup, h] using ih

theorem mlookup_merase_ne {α : Type} (m : List (String × α)) (k k' : String)
    (h : k' ≠ k) : mlookup (merase m k) k' = mlookup m k' := by
  induction m with
  | nil => rfl
  | cons p t ih =>
    by_cases hk : p.1 = k
    · have hpk' : p.1 ≠ k' := by
        rw [hk]; exact Ne.symm h
      simp only [merase, List.filter] at ih ⊢
      rw [show (p.1 != k) = false by simp [hk]]
      rw [ih, mlookup, if_neg hpk']
    · simp only [merase, List.filter] at ih ⊢
      rw [show (p.1 != k) = true by simp [hk]]
      by_cases hk' : p.1 = k'
      · simp [mlookup, hk']
      · simp only [mlookup, if_neg hk']
        exact ih

theorem mlookup_minsert_ne {α : Type} (m : List (String × α)) (k k' : String) (v : α)
    (h : k' ≠ k) : mlookup (minsert m k v) k' = mlookup m k' := by
  simp [minsert, mlookup, Ne.symm h, mlookup_merase_ne m k k' h]

/-! ## Claim C1 -/

/-- C1: for every rule set and every tool call, if any deny rule in the set
matches the call then `check` returns deny, even when some allow rule also
matches the same call, and regardless of where the deny rule sits in the
list. -/
theorem deny_rule_always_wins (rules : List Rule) (tool : String) (inp : ToolInput)
    (r : Rule) (hr : r ∈ rules) (hact : r.action = "deny")
    (hm : matchesRule r tool inp = true) :
    check rules tool inp = "deny" := by
  have hany : rules.any (fun r => r.action == "deny" && matchesRule r tool inp) = true :=
    List.any_eq_true.mpr ⟨r, hr, by simp [hact, hm]⟩
  simp [check, hany]

/-- Witness for C1: an allow rule listed before a deny rule, both matching
the same call; the result is still deny. -/
theorem deny_rule_always_wins_witness :
    check [⟨"Bash", "prefix", "git", "allow"⟩, ⟨"Bash", "prefix", "git", "deny"⟩]
      "Bash" { command := "git push" } = "deny" :=
  deny_rule_always_wins _ _ _ ⟨"Bash", "prefix", "git", "deny"⟩ (by simp)
    rfl (by decide)

/-! ## Claim C10 -/

/-- C10: for every command string whose first shell-word-split token's base
name is in the fixed dangerous-command set, `suggest_bash_pattern` returns
no suggestion, while `check` still matches (and denies through) a prefix
deny rule whose pattern equals that same dangerous base name. -/
theorem dangerous_suggests_none_but_deny_rule_matches
    (command first : String) (rest : List String)
    (hsplit : shlexSplit (pyStrip command) = some (first :: rest))
    (hdang : DANGEROUS.contains (basename first) = true) :
    suggest_bash_pattern command = none ∧
    matchesRule ⟨"Bash", "prefix", basename first, "deny"⟩ "Bash"
      { command := command } = true ∧
    check [⟨"Bash", "prefix", basename first, "deny"⟩] "Bash"
      { command := command } = "deny" := by
  have hempty : shlexSplit "" = some [] := rfl
  have hne : pyStrip command ≠ "" := by
    intro h0
    rw [h0, hempty] at hsplit
    exact (List.cons_ne_nil first rest) (Option.some.inj hsplit).symm
  have hsug : suggest_bash_pattern command = none := by
    unfold suggest_bash_pattern
    simp only [hne, if_false, hsplit, hdang, if_true]
  have hm : matchesRule ⟨"Bash", "prefix", basename first, "deny"⟩ "Bash"
      { command := command } = true := by
    unfold matchesRule
    simp only [hsug, hsplit]
    simp
  exact ⟨hsug, hm, by simp [check, hm]⟩

/-- Witness for C10 at the command `rm -rf /`. -/
theorem dangerous_suggests_none_but_deny_rule_matches_witness :
    suggest_bash_pattern "rm -rf /" = none ∧
    matchesRule ⟨"Bash", "prefix", basename "rm", "deny"⟩ "Bash"
      { command := "rm -rf /" } = true ∧
    check [⟨"Bash", "prefix", basename "rm", "deny"⟩] "Bash"
      { command := "rm -rf /" } = "deny" :=
  dangerous_suggests_none_but_deny_rule_matches "rm -rf /" "rm" ["-rf", "/"]
    (by decide) (by decide)

/-! ## Claim C2 -/

/-- C2: in the agent-side approval client, if the registration POST or the
long-poll wait fails for any transport reason, the resulting decision is
deny (never allow) and the tool executor is not run. -/
theorem transport_failure_fails_closed (t : Transport)
    (executor : Unit → Except String String)
    (h : t.registerOk = false ∨ t.waitResp = none) :
    requestApproval t = "deny" ∧
    handleGatedToolCall t true executor = .denied := by
  have hd : requestApproval t = "deny" := by
    rcases h with h | h <;> simp [requestApproval, h]
  refine ⟨hd, ?_⟩
  simp [handleGatedToolCall, hd]

/-- Witness for C2: the broker is unreachable at registration time even
though a wait would have answered allow; the call is still denied and the
executor is skipped. -/
theorem transport_failure_fails_closed_witness :
    requestApproval ⟨false, some (some "allow")⟩ = "deny" ∧
    handleGatedToolCall ⟨false, some (some "allow")⟩ true
      (fun _ => .ok "ran") = .denied :=
  transport_failure_fails_closed _ _ (Or.inl rfl)

/-! ## Claim C4 -/

/-- C4: for every registered request id with no recorded decision, `wait`
resolves to deny (after the fixed 300-second bound), and whenever `wait`
returns, the pending entry, decision slot and signal for that id are all
removed from the registry. -/
theorem wait_defaults_deny_and_purges (s : BrokerState) (rid : String)
    (hreg : (mlookup s.events rid).isSome = true) :
    (mlookup s.decisions rid = none →
      (apiApprovalWait s rid).1 = .okDecision "deny") ∧
    mlookup (apiApprovalWait s rid).2.pending rid = none ∧
    mlookup (apiApprovalWait s rid).2.decisions rid = none ∧
    mlookup (apiApprovalWait s rid).2.events rid = none ∧
    WAIT_TIMEOUT_SECONDS = 300 := by
  obtain ⟨b, hb⟩ := Option.isSome_iff_exists.mp hreg
  refine ⟨?_, ?_, ?_, ?_, rfl⟩
  · intro hdec
    simp [apiApprovalWait, hb, hdec]
  · simp [apiApprovalWait, hb, mlookup_merase_self]
  · simp [apiApprovalWait, hb, mlookup_merase_self]
  · simp [apiApprovalWait, hb, mlookup_merase_self]

/-- Witness for C4: a registered, undecided request times out to deny and
is fully purged. -/
theorem wait_defaults_deny_and_purges_witness :
    (mlookup (BrokerState.mk [("X", {})] [] [("X", false)]).decisions "X" = none →
      (apiApprovalWait (BrokerState.mk [("X", {})] [] [("X", false)]) "X").1 =
        .okDecision "deny") ∧
    mlookup (apiApprovalWait (BrokerState.mk [("X", {})] [] [("X", false)]) "X").2.pending
      "X" = none ∧
    mlookup (apiApprovalWait (BrokerState.mk [("X", {})] [] [("X", false)]) "X").2.decisions
      "X" = none ∧
    mlookup (apiApprovalWait (BrokerState.mk [("X", {})] [] [("X", false)]) "X").2.events
      "X" = none ∧
    WAIT_TIMEOUT_SECONDS = 300 :=
  wait_defaults_deny_and_purges _ "X" (by decide)

/-! ## Claim C8 -/

/-- C8: a gated request for a file-mutating tool whose target path is
inside the chat's registered workspace folder, and which the rule engine
did not already auto-allow, resolves to allow immediately: the decision is
recorded, the signal fires, and no permission_request event is injected. -/
theorem workspace_file_op_auto_allows (rules : List Rule) (cf : String → String)
    (s : BrokerState) (rid chat tool : String) (inp : ToolInput)
    (hrid : rid ≠ "")
    (htool : tool = "Write" ∨ tool = "Edit" ∨ tool = "MultiEdit")
    (hrules : check rules tool inp ≠ "allow")
    (hcf : cf chat ≠ "") (hfp : inp.file_path ≠ "")
    (hin : pyStartsWith inp.file_path (cf chat ++ "/") = true) :
    (apiApprovalRequest (some rules) cf s rid chat tool inp).1 = .okAuto rid ∧
    (apiApprovalRequest (some rules) cf s rid chat tool inp).2.2 = [] ∧
    mlookup (apiApprovalRequest (some rules) cf s rid chat tool inp).2.1.decisions
      rid = some "allow" ∧
    mlookup (apiApprovalRequest (some rules) cf s rid chat tool inp).2.1.events
      rid = some true := by
  have hra : (check rules tool inp == "allow") = false := by
    simp [hrules]
  have htool' : (tool == "Write" || tool == "Edit" || tool == "MultiEdit") = true := by
    rcases htool with h | h | h <;> simp [h]
  have hfa : ((tool == "Write" || tool == "Edit" || tool == "MultiEdit") &&
      (let cfv := cf chat
       cfv != "" && inp.file_path != "" && pyStartsWith inp.file_path (cfv ++ "/"))) =
      true := by
    simp [htool', hcf, hfp, hin]
  unfold apiApprovalRequest
  simp only [hrid, if_false, hra, Bool.false_eq_true, hfa, if_true,
    mlookup_minsert_self]
  simp

/-- Witness for C8: a Write into the registered workspace folder, with a
rule set that does not auto-allow it. -/
theorem workspace_file_op_auto_allows_witness :
    (apiApprovalRequest (some []) (fun _ => "/ws") {} "X" "c" "Write"
      { file_path := "/ws/a.py" }).1 = .okAuto "X" ∧
    (apiApprovalRequest (some []) (fun _ => "/ws") {} "X" "c" "Write"
      { file_path := "/ws/a.py" }).2.2 = [] ∧
    mlookup (apiApprovalRequest (some []) (fun _ => "/ws") {} "X" "c" "Write"
      { file_path := "/ws/a.py" }).2.1.decisions "X" = some "allow" ∧
    mlookup (apiApprovalRequest (some []) (fun _ => "/ws") {} "X" "c" "Write"
      { file_path := "/ws/a.py" }).2.1.events "X" = some true :=
  workspace_file_op_auto_allows [] _ {} "X" "c" "Write" _ (by decide)
    (Or.inl rfl) (by decide) (by decide) (by decide) (by decide)

/-! ## Claim C3 -/

/-- Counterexample to C3 as stated: decisions are not write-once per
request_id.  After registering request `X` (no auto-allow) and deciding it
allow, a second decide call for the same id succeeds and records a
different decision, deny. -/
theorem decide_overwrites_pending_decision :
    mlookup (apiApprovalDecide
      (apiApprovalRequest (some []) (fun _ => "") {} "X" "c" "Bash"
        { command := "foo" }).2.1 "X" "allow").2.1.decisions "X" = some "allow" ∧
    (apiApprovalDecide (apiApprovalDecide
      (apiApprovalRequest (some []) (fun _ => "") {} "X" "c" "Bash"
        { command := "foo" }).2.1 "X" "allow").2.1 "X" "deny").1 =
      .okDecide "deny" ∧
    mlookup (apiApprovalDecide (apiApprovalDecide
      (apiApprovalRequest (some []) (fun _ => "") {} "X" "c" "Bash"
        { command := "foo" }).2.1 "X" "allow").2.1 "X" "deny").2.1.decisions "X" =
      some "deny" := by
  refine ⟨?_, ?_, ?_⟩ <;> decide

/-- C3 as amended: a decision can be overwritten only while the request is
still pending; once `wait` has returned for a request_id — delivering at
most one decision for it and purging its registry entries — every later
decide call for that id is rejected with an error and records nothing. -/
theorem decide_after_wait_records_nothing (s : BrokerState) (rid d : String)
    (hreg : (mlookup s.events rid).isSome = true) :
    mlookup (apiApprovalWait s rid).2.events rid = none ∧
    (apiApprovalDecide (apiApprovalWait s rid).2 rid d).2.1 =
      (apiApprovalWait s rid).2 ∧
    ∃ c m, (apiApprovalDecide (apiApprovalWait s rid).2 rid d).1 = .err c m := by
  obtain ⟨b, hb⟩ := Option.isSome_iff_exists.mp hreg
  have hev : mlookup (apiApprovalWait s rid).2.events rid = none := by
    simp [apiApprovalWait, hb, mlookup_merase_self]
  refine ⟨hev, ?_, ?_⟩
  · by_cases h1 : rid = ""
    · simp [apiApprovalDecide, h1]
    · by_cases h2 : d ≠ "allow" ∧ d ≠ "deny"
      · simp [apiApprovalDecide, h1, h2]
      · simp [apiApprovalDecide, h1, h2, hev]
  · by_cases h1 : rid = ""
    · exact ⟨400, "request_id required", by simp [apiApprovalDecide, h1]⟩
    · by_cases h2 : d ≠ "allow" ∧ d ≠ "deny"
      · exact ⟨400, "decision must be allow or deny",
          by simp [apiApprovalDecide, h1, h2]⟩
      · exact ⟨404, "No pending request for this request_id",
          by simp [apiApprovalDecide, h1, h2, hev]⟩

/-! ## Loop-trace lemmas for the run-stream claims -/

/-- Prepending cancel-free actions preserves the cancel-trace shape. -/
theorem cancel_cases_extend (pa : List Action)
    (hpa : Action.emit .cancelledEvt ∉ pa)
    (res : LoopState × List (String × String) × List Action)
    (h : (res.1.wasCancelled = false ∧
            Action.emit .cancelledEvt ∉ res.2.2) ∨
         (res.1.wasCancelled = true ∧
            ∃ a, res.2.2 = a ++ [.emit .cancelledEvt] ∧
              Action.emit .cancelledEvt ∉ a)) :
    (res.1.wasCancelled = false ∧
       Action.emit .cancelledEvt ∉ pa ++ res.2.2) ∨
    (res.1.wasCancelled = true ∧
       ∃ a, pa ++ res.2.2 = a ++ [.emit .cancelledEvt] ∧
         Action.emit .cancelledEvt ∉ a) := by
  rcases h with ⟨h1, h2⟩ | ⟨h1, a, h2, h3⟩
  · refine Or.inl ⟨h1, fun hmem => ?_⟩
    rcases List.mem_append.mp hmem with h | h
    exacts [hpa h, h2 h]
  · refine Or.inr ⟨h1, pa ++ a, by rw [h2, List.append_assoc], fun hmem => ?_⟩
    rcases List.mem_append.mp hmem with h | h
    exacts [hpa h, h3 h]

/-- The consuming loop, started in a non-cancelled state, either never
emits a cancelled event (and ends non-cancelled), or ends cancelled with
its action list ending in exactly one cancelled event. -/
theorem consumeLoop_cancel_cases (chat : String) (items : List QItem)
    (st : LoopState) (smap : List (String × String))
    (hc : st.wasCancelled = false) :
    ((consumeLoop chat items st smap).1.wasCancelled = false ∧
       Action.emit .cancelledEvt ∉ (consumeLoop chat items st smap).2.2) ∨
    ((consumeLoop chat items st smap).1.wasCancelled = true ∧
       ∃ a, (consumeLoop chat items st smap).2.2 = a ++ [.emit .cancelledEvt] ∧
         Action.emit .cancelledEvt ∉ a) := by
  induction items generalizing st smap with
  | nil => exact Or.inl ⟨hc, by simp [consumeLoop]⟩
  | cons i rest ih =>
    by_cases hd : (st.outDone && st.errDone) = true
    · exact Or.inl (by simp [consumeLoop, hd, hc])
    · cases i with
      | outEof =>
        have h := ih { st with outDone := true } smap (by simpa using hc)
        simpa [consumeLoop, hd] using h
      | errEof =>
        have h := ih { st with errDone := true } smap (by simpa using hc)
        simpa [consumeLoop, hd] using h
      | cancel =>
        refine Or.inr ⟨by simp [consumeLoop, hd], [], by simp [consumeLoop, hd],
          by simp⟩
      | inj payload =>
        by_cases hp : payload = ""
        · have h := ih st smap hc
          simpa [consumeLoop, hd, hp] using h
        · have h := cancel_cases_extend [.emit (.injectedEvt payload)] (by simp)
            (consumeLoop chat rest st smap) (ih st smap hc)
          simpa [consumeLoop, hd, hp] using h
      | out l =>
        by_cases hl : lineText l = ""
        · have h := ih st smap hc
          simpa [consumeLoop, hd, hl] using h
        · cases l with
          | raw t =>
            simp only [lineText] at hl
            have h := cancel_cases_extend [.emit (.stdoutEvt (.raw t))] (by simp)
              (consumeLoop chat rest
                { st with stdoutLines := st.stdoutLines ++ [lineText (.raw t)] } smap)
              (ih _ smap (by simpa using hc))
            simpa [consumeLoop, hd, hl, lineText] using h
          | json t typ sid =>
            simp only [lineText] at hl
            by_cases hres : typ = "result"
            · subst hres
              have h := cancel_cases_extend
                ((if sid ≠ "" ∧ chat ≠ "" then [Action.persistSession chat sid] else []) ++
                  (if st.stdinClosed then [] else [Action.closeStdin]) ++
                  [Action.emit (.stdoutEvt (.json t "result" sid))])
                (by split <;> split <;> simp)
                (consumeLoop chat rest
                  { st with stdoutLines := st.stdoutLines ++ [lineText (.json t "result" sid)],
                            gotResult := true, stdinClosed := true }
                  (if sid ≠ "" ∧ chat ≠ "" then minsert smap chat sid else smap))
                (ih _ _ (by simpa using hc))
              simpa [consumeLoop, hd, hl, lineText] using h
            · have h := cancel_cases_extend [.emit (.stdoutEvt (.json t typ sid))] (by simp)
                (consumeLoop chat rest
                  { st with stdoutLines := st.stdoutLines ++ [lineText (.json t typ sid)] }
                  smap)
                (ih _ smap (by simpa using hc))
              simpa [consumeLoop, hd, hl, hres, lineText] using h
      | err line =>
        by_cases hl : line = ""
        · have h := ih st smap hc
          simpa [consumeLoop, hd, hl] using h
        · have h := cancel_cases_extend [.emit (.stderrEvt line)] (by simp)
            (consumeLoop chat rest
              { st with stderrLines := st.stderrLines ++ [line] } smap)
            (ih _ smap (by simpa using hc))
          simpa [consumeLoop, hd, hl] using h

/-- A single `_run_stream_impl` invocation that emits a cancelled event
emits exactly one, with no further emits after it. -/
theorem runOnce_cancel_split (isRetry : Bool) (env : RunEnv)
    (chat prompt oprompt : String) (ps : ProvState)
    (h : Action.emit .cancelledEvt ∈ (runOnce isRetry env chat prompt oprompt ps).2.1) :
    ∃ a b, (runOnce isRetry env chat prompt oprompt ps).2.1 =
        a ++ .emit .cancelledEvt :: b ∧
      Action.emit .cancelledEvt ∉ a ∧ ∀ e : Emit, .emit e ∉ b := by
  simp only [runOnce] at h ⊢
  by_cases hsp : env.spawnOk = false
  · rw [if_pos hsp] at h; simp at h
  · rw [if_neg hsp] at h ⊢
    by_cases hsw : env.stdinWriteOk = false
    · rw [if_pos hsw] at h; simp at h
    · rw [if_neg hsw] at h ⊢
      rcases consumeLoop_cancel_cases chat env.items {} ps.sessionMap rfl with
        ⟨hwc, hnc⟩ | ⟨hwc, a, ha, hna⟩
      · exfalso
        rw [if_neg (by simp [hwc])] at h
        split_ifs at h <;> simp [hnc] at h
      · rw [if_pos (by simp [hwc])] at h ⊢
        by_cases hch : chat ≠ ""
        · rw [if_pos hch] at h ⊢
          refine ⟨.emit .debugCmd :: a,
            (if (consumeLoop chat env.items {} ps.sessionMap).1.stdinClosed then []
             else [Action.closeStdin]) ++
              [.storeCancelledPrompt chat (if oprompt ≠ "" then oprompt else prompt)],
            ?_, ?_, ?_⟩
          · rw [ha]; simp
          · simp [hna]
          · intro e; split_ifs <;> simp
        · rw [if_neg hch] at h ⊢
          refine ⟨.emit .debugCmd :: a,
            (if (consumeLoop chat env.items {} ps.sessionMap).1.stdinClosed then []
             else [Action.closeStdin]), ?_, ?_, ?_⟩
          · rw [ha]; simp
          · simp [hna]
          · intro e; split_ifs <;> simp

/-- A single `_run_stream_impl` invocation that requests a retry was not
cancelled, so its actions contain no cancelled event. -/
theorem runOnce_retry_requested_no_cancel (isRetry : Bool) (env : RunEnv)
    (chat prompt oprompt : String) (ps : ProvState)
    (h : (runOnce isRetry env chat prompt oprompt ps).2.2 ≠ .noRetry) :
    Action.emit .cancelledEvt ∉ (runOnce isRetry env chat prompt oprompt ps).2.1 := by
  simp only [runOnce] at h ⊢
  by_cases hsp : env.spawnOk = false
  · rw [if_pos hsp] at h; simp at h
  · rw [if_neg hsp] at h ⊢
    by_cases hsw : env.stdinWriteOk = false
    · rw [if_pos hsw] at h; simp at h
    · rw [if_neg hsw] at h ⊢
      rcases consumeLoop_cancel_cases chat env.items {} ps.sessionMap rfl with
        ⟨hwc, hnc⟩ | ⟨hwc, a, ha, hna⟩
      · rw [if_neg (by simp [hwc])] at h ⊢
        split_ifs with h1 h2 <;> simp [hnc]
      · exfalso
        rw [if_pos (by simp [hwc])] at h
        split_ifs at h <;> simp at h

/-! ## Claim C5 -/

/-- C5: when a cancellation sentinel is received by the consuming loop (the
only way a cancelled event can be emitted), the run emits exactly one
terminal cancelled event and no subsequent events at all — in particular no
recovery (compaction or session-reset) events and no error events — for
that run. -/
theorem cancellation_single_terminal_event (env retryEnv : RunEnv)
    (chat prompt oprompt : String) (ps : ProvState)
    (h : Action.emit .cancelledEvt ∈ (runStreamTop env retryEnv chat prompt oprompt ps).2) :
    ∃ a b, (runStreamTop env retryEnv chat prompt oprompt ps).2 =
        a ++ .emit .cancelledEvt :: b ∧
      Action.emit .cancelledEvt ∉ a ∧ ∀ e : Emit, .emit e ∉ b := by
  rcases hreq : (runOnce false env chat prompt oprompt ps).2.2 with _ | _ | _
  · simp only [runStreamTop, hreq] at h ⊢
    exact runOnce_cancel_split false env chat prompt oprompt ps h
  all_goals {
    simp only [runStreamTop, hreq, List.mem_append] at h ⊢
    have hr1 : Action.emit .cancelledEvt ∉
        (runOnce false env chat prompt oprompt ps).2.1 :=
      runOnce_retry_requested_no_cancel false env chat prompt oprompt ps
        (by simp [hreq])
    rcases h with h | h
    · exact absurd h hr1
    · obtain ⟨a, b, hab, hna, hnb⟩ :=
        runOnce_cancel_split true retryEnv chat prompt oprompt
          (runOnce false env chat prompt oprompt ps).1 h
      refine ⟨(runOnce false env chat prompt oprompt ps).2.1 ++ a, b, ?_, ?_, hnb⟩
      · rw [hab, List.append_assoc]
      · intro hmem
        rcases List.mem_append.mp hmem with hm | hm
        exacts [hr1 hm, hna hm]
  }

/-- Witness for C5: a concrete run whose queue holds a cancellation
sentinel followed by further items that are never consumed. -/
theorem cancellation_single_terminal_event_witness :
    ∃ a b, (runStreamTop
        { items := [QItem.out (OutLine.raw "x"), QItem.cancel, QItem.err "late"] } {}
        "c" "p" "p" {}).2 =
        a ++ .emit .cancelledEvt :: b ∧
      Action.emit .cancelledEvt ∉ a ∧ ∀ e : Emit, .emit e ∉ b :=
  cancellation_single_terminal_event
    { items := [QItem.out (OutLine.raw "x"), QItem.cancel, QItem.err "late"] } {}
    "c" "p" "p" {} (by decide)

/-- Compositionality of the consuming loop: processing `pre ++ rest` either
stops inside `pre` (cancel or both eofs), or processes `pre` and then
`rest` from the reached state, concatenating the actions. -/
theorem consumeLoop_append (chat : String) (pre rest : List QItem) (st : LoopState)
    (smap : List (String × String)) (hc : st.wasCancelled = false) :
    consumeLoop chat (pre ++ rest) st smap =
      (if (consumeLoop chat pre st smap).1.halted then consumeLoop chat pre st smap
       else
         ((consumeLoop chat rest (consumeLoop chat pre st smap).1
             (consumeLoop chat pre st smap).2.1).1,
          (consumeLoop chat rest (consumeLoop chat pre st smap).1
             (consumeLoop chat pre st smap).2.1).2.1,
          (consumeLoop chat pre st smap).2.2 ++
            (consumeLoop chat rest (consumeLoop chat pre st smap).1
               (consumeLoop chat pre st smap).2.1).2.2)) := by
  induction pre generalizing st smap with
  | nil =>
    simp only [List.nil_append, consumeLoop]
    by_cases hh : LoopState.halted st = true
    · rw [if_pos hh]
      have hd : (st.outDone && st.errDone) = true := by
        simpa [LoopState.halted, hc] using hh
      cases rest with
      | nil => simp [consumeLoop]
      | cons i t2 => simp [consumeLoop, hd]
    · rw [if_neg hh]
  | cons i t ih =>
    by_cases hd : (st.outDone && st.errDone) = true
    · have hh : LoopState.halted st = true := by simp [LoopState.halted, hd]
      simp [consumeLoop, hd, hh, LoopState.halted]
    · cases i with
      | outEof =>
        have h := ih { st with outDone := true } smap (by simpa using hc)
        simpa [consumeLoop, hd, List.append_eq] using h
      | errEof =>
        have h := ih { st with errDone := true } smap (by simpa using hc)
        simpa [consumeLoop, hd, List.append_eq] using h
      | cancel =>
        simp [consumeLoop, hd, LoopState.halted]
      | inj payload =>
        by_cases hp : payload = ""
        · have h := ih st smap hc
          simpa [consumeLoop, hd, hp, List.append_eq] using h
        · have h := ih st smap hc
          simp only [List.cons_append, consumeLoop, if_neg hd, hp, if_false, List.append_eq]
          rw [h]
          by_cases hh : (consumeLoop chat t st smap).1.halted = true <;>
            simp [hh]
      | out l =>
        by_cases hl : lineText l = ""
        · have h := ih st smap hc
          simpa [consumeLoop, hd, hl, List.append_eq] using h
        · cases l with
          | raw t2 =>
            simp only [lineText] at hl
            have h := ih { st with stdoutLines := st.stdoutLines ++ [t2] } smap
              (by simpa using hc)
            simp only [List.cons_append, consumeLoop, lineText, if_neg hd, hl, if_false, List.append_eq]
            rw [h]
            by_cases hh : (consumeLoop chat t
                { st with stdoutLines := st.stdoutLines ++ [t2] } smap).1.halted =
                true <;>
              simp [hh]
          | json t2 typ sid =>
            simp only [lineText] at hl
            by_cases hres : typ = "result"
            · subst hres
              have h := ih
                { st with stdoutLines := st.stdoutLines ++ [t2],
                          gotResult := true, stdinClosed := true }
                (if sid ≠ "" ∧ chat ≠ "" then minsert smap chat sid else smap)
                (by simpa using hc)
              simp only [List.cons_append, consumeLoop, lineText, if_neg hd, hl, if_false, ite_true, List.append_eq]
              rw [h]
              by_cases hh : (consumeLoop chat t
                  { st with stdoutLines := st.stdoutLines ++ [t2],
                            gotResult := true, stdinClosed := true }
                  (if sid ≠ "" ∧ chat ≠ "" then minsert smap chat sid else smap)).1.halted =
                  true <;>
                simp [hh]
            · have h := ih { st with stdoutLines := st.stdoutLines ++ [t2] } smap
                (by simpa using hc)
              simp only [List.cons_append, consumeLoop, lineText, if_neg hd, hl, if_false, hres, List.append_eq]
              rw [h]
              by_cases hh : (consumeLoop chat t
                  { st with stdoutLines := st.stdoutLines ++ [t2] } smap).1.halted =
                  true <;>
                simp [hh]
      | err line =>
        by_cases hl : line = ""
        · have h := ih st smap hc
          simpa [consumeLoop, hd, hl, List.append_eq] using h
        · have h := ih { st with stderrLines := st.stderrLines ++ [line] } smap
            (by simpa using hc)
          simp only [List.cons_append, consumeLoop, if_neg hd, hl, if_false, List.append_eq]
          rw [h]
          by_cases hh : (consumeLoop chat t
              { st with stderrLines := st.stderrLines ++ [line] } smap).1.halted =
              true <;>
            simp [hh]

/-- The consuming loop never performs a recovery action: compaction,
session dropping and the recovery events happen only in post-processing. -/
theorem consumeLoop_no_recovery (chat : String) (items : List QItem)
    (st : LoopState) (smap : List (String × String)) :
    ∀ a ∈ (consumeLoop chat items st smap).2.2, isRecoveryAct a = false := by
  induction items generalizing st smap with
  | nil => simp [consumeLoop]
  | cons i rest ih =>
    by_cases hd : (st.outDone && st.errDone) = true
    · simp [consumeLoop, hd]
    · cases i with
      | outEof => simpa [consumeLoop, hd] using ih { st with outDone := true } smap
      | errEof => simpa [consumeLoop, hd] using ih { st with errDone := true } smap
      | cancel => simp [consumeLoop, hd, isRecoveryAct]
      | inj payload =>
        by_cases hp : payload = ""
        · simpa [consumeLoop, hd, hp] using ih st smap
        · simpa [consumeLoop, hd, hp, List.forall_mem_cons, isRecoveryAct]
            using ih st smap
      | out l =>
        by_cases hl : lineText l = ""
        · simpa [consumeLoop, hd, hl] using ih st smap
        · cases l with
          | raw t2 =>
            simp only [lineText] at hl
            simpa [consumeLoop, hd, hl, lineText, List.forall_mem_cons, isRecoveryAct]
              using ih { st with stdoutLines := st.stdoutLines ++ [t2] } smap
          | json t2 typ sid =>
            simp only [lineText] at hl
            by_cases hres : typ = "result"
            · subst hres
              have hrec := ih
                { st with stdoutLines := st.stdoutLines ++ [t2],
                          gotResult := true, stdinClosed := true }
                (if sid ≠ "" ∧ chat ≠ "" then minsert smap chat sid else smap)
              simp only [consumeLoop, lineText, if_neg hd, if_neg hl,
                eq_self_iff_true, if_true, List.forall_mem_append,
                List.forall_mem_cons, and_assoc]
              refine ⟨?_, ?_, rfl, hrec⟩ <;>
                (split <;> simp [isRecoveryAct])
            · simpa [consumeLoop, hd, hl, hres, lineText, List.forall_mem_cons,
                isRecoveryAct]
                using ih { st with stdoutLines := st.stdoutLines ++ [t2] } smap
      | err line =>
        by_cases hl : line = ""
        · simpa [consumeLoop, hd, hl] using ih st smap
        · simpa [consumeLoop, hd, hl, List.forall_mem_cons, isRecoveryAct]
            using ih { st with stderrLines := st.stderrLines ++ [line] } smap

/-! ## Claim C6 -/

/-- Counterexample to C6 as stated: a run marked as a retry whose output
matches a context-too-large signature and that produced no result event,
but whose stdout is non-empty, does not surface as a plain error: the run
emits no error-kind event at all.  (It does, as claimed, attempt no second
compaction: see the amended theorem.) -/
theorem retry_failure_not_surfaced_as_error :
    (consumeLoop "c" [QItem.out (OutLine.raw "prompt is too long"), QItem.outEof,
        QItem.errEof] {} [("c", "s")]).1.gotResult = false ∧
    PROMPT_TOO_LONG_PATTERNS.any (fun p =>
      hasInfix (pyLower (String.intercalate "\n"
        ((consumeLoop "c" [QItem.out (OutLine.raw "prompt is too long"), QItem.outEof,
            QItem.errEof] {} [("c", "s")]).1.stdoutLines ++
          (consumeLoop "c" [QItem.out (OutLine.raw "prompt is too long"), QItem.outEof,
              QItem.errEof] {} [("c", "s")]).1.stderrLines))).data p.data) = true ∧
    (runOnce true
        { items := [QItem.out (OutLine.raw "prompt is too long"), QItem.outEof,
            QItem.errEof] } "c" "p" "p"
        { sessionMap := [("c", "s")] }).2.1.countP isErrorEmit = 0 := by
  refine ⟨by decide, by decide, by decide⟩

/-- C6 as amended: a retry run whose output again matches a
context-too-large signature performs no recovery action at all — no second
compaction attempt, no session drop, no compaction or session-reset event —
and requests no further retry; it surfaces as a plain error event exactly
when it produced no stdout lines (stderr lines having already been
re-emitted as error events as they arrived). -/
theorem retry_run_never_recovers (env : RunEnv) (chat prompt oprompt : String)
    (ps : ProvState)
    (hgr : (consumeLoop chat env.items {} ps.sessionMap).1.gotResult = false)
    (_hsig : PROMPT_TOO_LONG_PATTERNS.any (fun p =>
      hasInfix (pyLower (String.intercalate "\n"
        ((consumeLoop chat env.items {} ps.sessionMap).1.stdoutLines ++
          (consumeLoop chat env.items {} ps.sessionMap).1.stderrLines))).data
        p.data) = true) :
    (∀ a ∈ (runOnce true env chat prompt oprompt ps).2.1, isRecoveryAct a = false) ∧
    (runOnce true env chat prompt oprompt ps).2.2 = .noRetry ∧
    (env.spawnOk = true → env.stdinWriteOk = true →
      (consumeLoop chat env.items {} ps.sessionMap).1.wasCancelled = false →
      (consumeLoop chat env.items {} ps.sessionMap).1.stdoutLines = [] →
      Action.emit .noOutputError ∈ (runOnce true env chat prompt oprompt ps).2.1) := by
  have hloop := consumeLoop_no_recovery chat env.items {} ps.sessionMap
  simp only [runOnce, Bool.not_true, Bool.and_false, Bool.false_and,
    Bool.false_eq_true, if_false]
  by_cases hsp : env.spawnOk = false
  · rw [if_pos hsp]
    refine ⟨by simp [isRecoveryAct], rfl, fun h1 => ?_⟩
    rw [h1] at hsp; simp at hsp
  · rw [if_neg hsp]
    by_cases hsw : env.stdinWriteOk = false
    · rw [if_pos hsw]
      refine ⟨by simp [isRecoveryAct], rfl, fun _ h2 => ?_⟩
      rw [h2] at hsw; simp at hsw
    · rw [if_neg hsw]
      by_cases hwc : (consumeLoop chat env.items {} ps.sessionMap).1.wasCancelled = true
      · rw [if_pos hwc]
        have hmem : ∀ tail : List Action, (∀ a ∈ tail, isRecoveryAct a = false) →
            ∀ a ∈ (Action.emit Emit.debugCmd ::
                (consumeLoop chat env.items {} ps.sessionMap).2.2 ++
                ((if (consumeLoop chat env.items {} ps.sessionMap).1.stdinClosed
                  then [] else [Action.closeStdin]) ++ tail)),
              isRecoveryAct a = false := by
          intro tail htail
          simp only [List.forall_mem_cons, List.forall_mem_append, and_assoc]
          exact ⟨rfl, hloop, by split <;> simp [isRecoveryAct], htail⟩
        by_cases hch : chat ≠ ""
        · rw [if_pos hch]
          refine ⟨?_, rfl, fun _ _ hwc2 => ?_⟩
          · intro a ha
            refine hmem [Action.storeCancelledPrompt chat
              (if oprompt ≠ "" then oprompt else prompt)] ?_ a (by simpa using ha)
            simp [isRecoveryAct]
          · rw [hwc2] at hwc; simp at hwc
        · rw [if_neg hch]
          refine ⟨?_, rfl, fun _ _ hwc2 => ?_⟩
          · intro a ha
            exact hmem [] (by simp) a (by simpa using ha)
          · rw [hwc2] at hwc; simp at hwc
      · rw [if_neg hwc]
        by_cases hno : ((!(consumeLoop chat env.items {} ps.sessionMap).1.gotResult) &&
            (consumeLoop chat env.items {} ps.sessionMap).1.stdoutLines.isEmpty) = true
        · rw [if_pos hno]
          refine ⟨?_, rfl, fun _ _ _ _ => by simp⟩
          simp only [List.cons_append, List.nil_append, List.append_assoc,
            List.forall_mem_cons, List.forall_mem_append, and_assoc]
          exact ⟨rfl, hloop, by split <;> simp [isRecoveryAct],
            by simp [isRecoveryAct], by simp⟩
        · rw [if_neg hno]
          refine ⟨?_, rfl, fun _ _ _ hlines => ?_⟩
          · simp only [List.cons_append, List.nil_append, List.append_assoc,
              List.forall_mem_cons, List.forall_mem_append, and_assoc]
            exact ⟨rfl, hloop, by split <;> simp [isRecoveryAct]⟩
          · exfalso
            apply hno
            simp [hgr, hlines]

/-- Witness for the amended C6: a retry run whose stderr matches the
signature performs no recovery and surfaces a plain error. -/
theorem retry_run_never_recovers_witness :
    (∀ a ∈ (runOnce true { items := [QItem.err "prompt is too long", QItem.outEof,
        QItem.errEof] } "c" "p" "p" { sessionMap := [("c", "s")] }).2.1,
      isRecoveryAct a = false) ∧
    (runOnce true { items := [QItem.err "prompt is too long", QItem.outEof,
        QItem.errEof] } "c" "p" "p" { sessionMap := [("c", "s")] }).2.2 = .noRetry ∧
    (({ items := [QItem.err "prompt is too long", QItem.outEof, QItem.errEof] } :
        RunEnv).spawnOk = true →
      ({ items := [QItem.err "prompt is too long", QItem.outEof, QItem.errEof] } :
        RunEnv).stdinWriteOk = true →
      (consumeLoop "c" [QItem.err "prompt is too long", QItem.outEof, QItem.errEof]
        {} [("c", "s")]).1.wasCancelled = false →
      (consumeLoop "c" [QItem.err "prompt is too long", QItem.outEof, QItem.errEof]
        {} [("c", "s")]).1.stdoutLines = [] →
      Action.emit .noOutputError ∈ (runOnce true { items := [QItem.err
        "prompt is too long", QItem.outEof, QItem.errEof] } "c" "p" "p"
        { sessionMap := [("c", "s")] }).2.1) :=
  retry_run_never_recovers
    { items := [QItem.err "prompt is too long", QItem.outEof, QItem.errEof] }
    "c" "p" "p" { sessionMap := [("c", "s")] } (by decide) (by decide)

/-! ## Claim C7 -/

/-- Counterexample to C7 as stated: a run with an empty chat identifier
that completes with a result event reporting the non-empty session id
`sess-1` persists nothing — the trace holds no persistSession action. -/
theorem empty_chat_skips_session_persist :
    (runStreamTop { items := [QItem.out (OutLine.json "line" "result" "sess-1"),
        QItem.outEof, QItem.errEof] } {} "" "p" "p" {}).2 =
      [Action.emit .debugCmd, Action.closeStdin,
       Action.emit (.stdoutEvt (OutLine.json "line" "result" "sess-1"))] ∧
    (runStreamTop { items := [QItem.out (OutLine.json "line" "result" "sess-1"),
        QItem.outEof, QItem.errEof] } {} "" "p" "p" {}).2.countP
      (fun a => match a with | .persistSession _ _ => true | _ => false) = 0 := by
  refine ⟨by decide, by decide⟩

/-- C7 as amended: for a run with a non-empty chat identifier, when the
consuming loop processes a result event while stdin is still open, the
reported session id is persisted if and only if it is non-empty, and the
persistence immediately precedes the closing of stdin (which precedes the
re-emission of the result line). -/
theorem result_persists_iff_sid_before_close (chat t sid : String)
    (pre post : List QItem) (smap : List (String × String))
    (ht : t ≠ "") (hchat : chat ≠ "")
    (hrun : (consumeLoop chat pre {} smap).1.halted = false)
    (hopen : (consumeLoop chat pre {} smap).1.stdinClosed = false) :
    ∃ b, (consumeLoop chat (pre ++ QItem.out (OutLine.json t "result" sid) :: post)
        {} smap).2.2 =
      (consumeLoop chat pre {} smap).2.2 ++
        ((if sid ≠ "" then [Action.persistSession chat sid] else []) ++
          Action.closeStdin :: Action.emit (.stdoutEvt (OutLine.json t "result" sid)) ::
            b) := by
  have hg : ((consumeLoop chat pre {} smap).1.outDone &&
      (consumeLoop chat pre {} smap).1.errDone) = false := by
    have h0 := hrun
    simp only [LoopState.halted, Bool.or_eq_false_iff] at h0
    exact h0.2
  rw [consumeLoop_append chat pre (QItem.out (OutLine.json t "result" sid) :: post)
    {} smap rfl]
  rw [if_neg (by simp [hrun])]
  refine ⟨(consumeLoop chat post
      { (consumeLoop chat pre {} smap).1 with
        stdoutLines := (consumeLoop chat pre {} smap).1.stdoutLines ++ [t],
        gotResult := true, stdinClosed := true }
      (if sid ≠ "" ∧ chat ≠ "" then
        minsert (consumeLoop chat pre {} smap).2.1 chat sid
       else (consumeLoop chat pre {} smap).2.1)).2.2, ?_⟩
  have hg' : ¬ (((consumeLoop chat pre {} smap).1.outDone &&
      (consumeLoop chat pre {} smap).1.errDone) = true) := by simp [hg]
  simp only [consumeLoop, lineText, if_neg hg', if_neg ht]
  simp [hopen, hchat]

/-- Witness for the amended C7: a result event reporting `sess-1` right at
the start of the stream is persisted and then stdin is closed. -/
theorem result_persists_iff_sid_before_close_witness :
    ∃ b, (consumeLoop "c" ([] ++ QItem.out (OutLine.json "line" "result" "sess-1") ::
        [QItem.outEof, QItem.errEof]) {} []).2.2 =
      (consumeLoop "c" [] {} []).2.2 ++
        ((if "sess-1" ≠ "" then [Action.persistSession "c" "sess-1"] else []) ++
          Action.closeStdin ::
            Action.emit (.stdoutEvt (OutLine.json "line" "result" "sess-1")) :: b) :=
  result_persists_iff_sid_before_close "c" "line" "sess-1" []
    [QItem.outEof, QItem.errEof] [] (by decide) (by decide) (by decide) (by decide)

/-! ## Claim C9 -/

/-- Counterexample to C9 as stated: an empty stderr line read from the
subprocess is dropped by the consuming loop — the run re-emits no stderr
error event at all. -/
theorem empty_stderr_line_swallowed :
    (runStreamTop { items := [QItem.err "", QItem.out (OutLine.raw "hello"),
        QItem.outEof, QItem.errEof] } {} "c" "p" "p" {}).2 =
      [Action.emit .debugCmd, Action.emit (.stdoutEvt (OutLine.raw "hello")),
       Action.closeStdin] ∧
    (runStreamTop { items := [QItem.err "", QItem.out (OutLine.raw "hello"),
        QItem.outEof, QItem.errEof] } {} "c" "p" "p" {}).2.countP
      (fun a => match a with | .emit (.stderrEvt _) => true | _ => false) = 0 := by
  refine ⟨by decide, by decide⟩

/-- C9 as amended: every non-empty stderr line that the consuming loop
dequeues while still running (no cancellation sentinel and not both eof
markers seen before it) is re-emitted as a synthetic error event. -/
theorem consumed_stderr_line_reemitted (chat l : String) (pre post : List QItem)
    (smap : List (String × String)) (hl : l ≠ "")
    (hrun : (consumeLoop chat pre {} smap).1.halted = false) :
    Action.emit (.stderrEvt l) ∈
      (consumeLoop chat (pre ++ QItem.err l :: post) {} smap).2.2 := by
  have hg : ((consumeLoop chat pre {} smap).1.outDone &&
      (consumeLoop chat pre {} smap).1.errDone) = false := by
    have h0 := hrun
    simp only [LoopState.halted, Bool.or_eq_false_iff] at h0
    exact h0.2
  rw [consumeLoop_append chat pre (QItem.err l :: post) {} smap rfl]
  rw [if_neg (by simp [hrun])]
  simp [consumeLoop, hg, hl]

/-- Witness for the amended C9: a non-empty stderr line between two stdout
lines is re-emitted as an error event. -/
theorem consumed_stderr_line_reemitted_witness :
    Action.emit (.stderrEvt "boom") ∈
      (consumeLoop "c" ([QItem.out (OutLine.raw "a")] ++ QItem.err "boom" ::
        [QItem.outEof, QItem.errEof]) {} []).2.2 :=
  consumed_stderr_line_reemitted "c" "boom" [QItem.out (OutLine.raw "a")]
    [QItem.outEof, QItem.errEof] [] (by decide) (by decide)

/-- Witness for the amended C3: a decided, delivered request rejects a
later conflicting decide call. -/
theorem decide_after_wait_records_nothing_witness :
    mlookup (apiApprovalWait (BrokerState.mk [("X", {})] [("X", "allow")]
      [("X", true)]) "X").2.events "X" = none ∧
    (apiApprovalDecide (apiApprovalWait (BrokerState.mk [("X", {})] [("X", "allow")]
      [("X", true)]) "X").2 "X" "deny").2.1 =
      (apiApprovalWait (BrokerState.mk [("X", {})] [("X", "allow")]
        [("X", true)]) "X").2 ∧
    ∃ c m, (apiApprovalDecide (apiApprovalWait (BrokerState.mk [("X", {})]
      [("X", "allow")] [("X", true)]) "X").2 "X" "deny").1 = .err c m :=
  decide_after_wait_records_nothing _ "X" "deny" (by decide)

end AppApp
